import Mathlib

/-!
Verification of the EDS (endpoint discovery service) core from
pilot/pkg/proxy/envoy/v2/eds.go.

The Go source is shallowly embedded below.  Pure functions of the source
become Lean functions; the shared mutable registry (the global map
edsClusters guarded by edsClusterMutex, plus the per-cluster mutexes)
becomes explicit state passing over an association-list map; the external
collaborators (the service registry lookup reached through
ServiceDiscovery.Instances together with the cluster-name parsing helpers
of the model package, which are outside this repository's sources) are
abstracted as an oracle parameter mapping a cluster name to the result of
the instance lookup.  Machine integers are modelled as Nat, with the
int-to-uint32 conversion written as an explicit reduction modulo 2^32.
Go's buffered-channel send is modelled by an explicit outcome type.
Time values are Nat, 0 standing for Go's zero time (time.Time.IsZero).
-/

namespace EdsV2

/-! ### Association-list maps, standing for Go's map type.

Go maps have unique keys and unspecified iteration order; the claims
settled here do not depend on iteration order, so an insertion-ordered
association list is a faithful determinization. -/

def mapLookup {α : Type} : List (String × α) → String → Option α
  | [], _ => none
  | (k, v) :: rest, k' => if k = k' then some v else mapLookup rest k'

def mapInsert {α : Type} : List (String × α) → String → α → List (String × α)
  | [], k, v => [(k, v)]
  | (k0, v0) :: rest, k, v =>
    if k0 = k then (k, v) :: rest else (k0, v0) :: mapInsert rest k v

def mapDelete {α : Type} : List (String × α) → String → List (String × α)
  | [], _ => []
  | (k0, v0) :: rest, k =>
    if k0 = k then mapDelete rest k else (k0, v0) :: mapDelete rest k

/-! ### Go's net.ParseIP (go1.10 semantics), used by newEndpoint.

Translates net/ip.go's ParseIP together with its helpers dtoi, xtoi,
parseIPv4 and parseIPv6 from the Go standard library version the source
builds against.  An IP is a list of bytes (length 16 for every address
this parser accepts; parseIPv4 yields the IPv4-in-IPv6 form, as in Go). -/

/-- Upper bound 0xFFFFFF used by Go's dtoi and xtoi to cut off overflow. -/
def bigCutoff : Nat := 16777215

/-- Decimal-digit test on a character, as Go's comparison against 0-9. -/
def isDecDigit (c : Char) : Bool := decide ('0' ≤ c ∧ c ≤ '9')

/-- Value of a hexadecimal digit character, none for a non-digit. -/
def hexDigitVal (c : Char) : Option Nat :=
  if '0' ≤ c ∧ c ≤ '9' then some (c.toNat - 48)
  else if 'a' ≤ c ∧ c ≤ 'f' then some (c.toNat - 97 + 10)
  else if 'A' ≤ c ∧ c ≤ 'F' then some (c.toNat - 65 + 10)
  else none

/-- Loop body of Go's dtoi: accumulate decimal digits, failing on overflow
past bigCutoff; the Bool argument records whether a digit was consumed. -/
def dtoiGo : List Char → Nat → Bool → Option (Nat × List Char)
  | [], n, consumed => if consumed then some (n, []) else none
  | c :: rest, n, consumed =>
    if isDecDigit c then
      let n' := n * 10 + (c.toNat - 48)
      if bigCutoff ≤ n' then none
      else dtoiGo rest n' true
    else if consumed then some (n, c :: rest) else none

/-- Go's dtoi: parse a decimal number prefix, returning the value and the
rest of the input; none when no digit is present or the value overflows. -/
def dtoiL (s : List Char) : Option (Nat × List Char) := dtoiGo s 0 false

/-- Loop body of Go's xtoi, as dtoiGo but hexadecimal. -/
def xtoiGo : List Char → Nat → Bool → Option (Nat × List Char)
  | [], n, consumed => if consumed then some (n, []) else none
  | c :: rest, n, consumed =>
    match hexDigitVal c with
    | some d =>
      let n' := n * 16 + d
      if bigCutoff ≤ n' then none
      else xtoiGo rest n' true
    | none => if consumed then some (n, c :: rest) else none

/-- Go's xtoi: parse a hexadecimal number prefix. -/
def xtoiL (s : List Char) : Option (Nat × List Char) := xtoiGo s 0 false

/-- The 16-byte IPv4-in-IPv6 form produced by Go's IPv4 constructor. -/
def v4InV6 (a b c d : Nat) : List Nat :=
  [0, 0, 0, 0, 0, 0, 0, 0, 0, 0, 255, 255, a, b, c, d]

/-- One dotted-decimal field of parseIPv4: a decimal number at most 0xFF. -/
def parseOctet (s : List Char) : Option (Nat × List Char) :=
  match dtoiL s with
  | none => none
  | some (n, rest) => if 255 < n then none else some (n, rest)

/-- Go's parseIPv4: four dotted-decimal fields consuming the whole input;
returns the 16-byte IPv4-in-IPv6 byte list, as Go's IPv4() does. -/
def parseIPv4 (s : List Char) : Option (List Nat) :=
  match parseOctet s with
  | none => none
  | some (a, s1) =>
    match s1 with
    | '.' :: s2 =>
      match parseOctet s2 with
      | none => none
      | some (b, s3) =>
        match s3 with
        | '.' :: s4 =>
          match parseOctet s4 with
          | none => none
          | some (c, s5) =>
            match s5 with
            | '.' :: s6 =>
              match parseOctet s6 with
              | none => none
              | some (d, s7) => if s7 = [] then some (v4InV6 a b c d) else none
            | _ => none
        | _ => none
    | _ => none

/-- Post-loop section of Go's parseIPv6: reject leftover input is handled at
the call sites; here, expand the ellipsis when fewer than 16 bytes were
written, and reject an ellipsis that stands for zero groups. -/
def ipv6Finish (acc : List Nat) (ell : Option Nat) : Option (List Nat) :=
  if acc.length < 16 then
    match ell with
    | none => none
    | some e => some (acc.take e ++ List.replicate (16 - acc.length) 0 ++ acc.drop e)
  else
    match ell with
    | some _ => none
    | none => some acc

/-- Main loop of Go's parseIPv6.  The fuel argument counts the remaining
16-bit groups (the Go loop runs while i < 16 and writes two bytes per
iteration, so eight iterations at most); acc holds the bytes written so
far and ell the byte position of the ellipsis, when one was seen. -/
def parseIPv6Loop : Nat → List Char → List Nat → Option Nat → Option (List Nat)
  | 0, s, acc, ell => if s = [] then ipv6Finish acc ell else none
  | fuel + 1, s, acc, ell =>
    match xtoiL s with
    | none => none
    | some (n, rest) =>
      if 65535 < n then none
      else
        match rest with
        | '.' :: _ =>
          if ell = none ∧ acc.length ≠ 12 then none
          else if 16 < acc.length + 4 then none
          else
            match parseIPv4 s with
            | none => none
            | some ip4 => ipv6Finish (acc ++ ip4.drop 12) ell
        | _ =>
          let acc2 := acc ++ [n / 256, n % 256]
          match rest with
          | [] => ipv6Finish acc2 ell
          | ':' :: rest2 =>
            match rest2 with
            | [] => none
            | ':' :: rest3 =>
              if ell ≠ none then none
              else if rest3 = [] then ipv6Finish acc2 (some acc2.length)
              else parseIPv6Loop fuel rest3 acc2 (some acc2.length)
            | _ => parseIPv6Loop fuel rest2 acc2 ell
          | _ => none

/-- Go's parseIPv6 (zone handling disabled, as ParseIP calls it). -/
def parseIPv6 (s : List Char) : Option (List Nat) :=
  match s with
  | ':' :: ':' :: rest =>
    if rest = [] then some (List.replicate 16 0)
    else parseIPv6Loop 8 rest [] (some 0)
  | _ => parseIPv6Loop 8 s [] none

/-- Dispatch loop of Go's ParseIP: the first '.' or ':' in the input
selects the IPv4 or IPv6 grammar; an input with neither is rejected. -/
def parseIPDispatch : List Char → List Char → Option (List Nat)
  | _, [] => none
  | full, c :: rest =>
    if c = '.' then parseIPv4 full
    else if c = ':' then parseIPv6 full
    else parseIPDispatch full rest

/-- Go's net.ParseIP. -/
def ParseIP (s : String) : Option (List Nat) := parseIPDispatch s.data s.data

/-- Go's IP.To4: the 4-byte form of an address that is IPv4 or
IPv4-in-IPv6, none otherwise.  newEndpoint's Ipv4Compat flag is the
non-nil-ness of this value. -/
def ipTo4 (ip : List Nat) : Option (List Nat) :=
  if ip.length = 4 then some ip
  else if ip.length = 16 ∧ ip.take 12 = [0, 0, 0, 0, 0, 0, 0, 0, 0, 0, 255, 255] then
    some (ip.drop 12)
  else none

/-! ### Data model of eds.go. -/

/-- model.ServiceInstance, restricted to the fields eds.go reads:
Endpoint.Address, Endpoint.Port and AvailabilityZone. -/
structure ServiceInstance where
  address : String
  port : Nat
  availabilityZone : String
deriving DecidableEq

/-- endpoint.LbEndpoint as built by newEndpoint: the socket address fields
that eds.go fills in (the protocol field is the constant TCP). -/
structure LbEndpoint where
  address : String
  portValue : Nat
  ipv4Compat : Bool
deriving DecidableEq

/-- endpoint.LocalityLbEndpoints: a zone and its endpoints. -/
structure LocalityLbEndpoints where
  zone : String
  lbEndpoints : List LbEndpoint
deriving DecidableEq

/-- xdsapi.ClusterLoadAssignment: the per-cluster snapshot. -/
structure ClusterLoadAssignment where
  clusterName : String
  endpoints : List LocalityLbEndpoints
deriving DecidableEq

/-- XdsEvent: the value sent on a connection's pushChannel. -/
structure XdsEvent where
  clusters : List String
deriving DecidableEq

/-- XdsConnection, restricted to what the registry-side code reads: connId
models pointer identity (the Go code compares *XdsConnection pointers), and
pushBuf is the current content of the one-slot buffered pushChannel. -/
structure XdsConnection where
  connId : Nat
  pushBuf : Option XdsEvent
deriving DecidableEq

/-- EdsCluster: per-cluster cache entry.  Times are Nat, 0 = Go zero time. -/
structure EdsCluster where
  loadAssignment : Option ClusterLoadAssignment
  firstUse : Nat
  edsClients : List (String × XdsConnection)
  nonEmptyTime : Nat
deriving DecidableEq

/-- The global edsClusters map. -/
def Registry : Type := List (String × EdsCluster)

/-- The external resolution chain of updateCluster (cluster-name parsing
via the model package plus ServiceDiscovery.Instances), which lives outside
this file's source: abstracted as an oracle from the cluster name to the
result of the instance lookup. -/
def Env : Type := String → Except String (List ServiceInstance)

/-- xdsapi.DiscoveryRequest, restricted to the fields eds.go reads:
Node.Id (none when Node is nil), ResourceNames, VersionInfo, and whether
ErrorDetail is set. -/
structure DiscoveryRequest where
  node : Option String
  resourceNames : List String
  versionInfo : String
  errorDetail : Bool
deriving DecidableEq

/-- Local state of one StreamEndpoints loop: the initialRequestReceived
flag, the connection identity string conID, con.Clusters, con.added, plus
the process-wide connectionNumber counter (global in Go, threaded here). -/
structure HandlerState where
  initialRequestReceived : Bool
  conID : String
  clusters : List String
  added : Bool
  counter : Nat
deriving DecidableEq

/-! ### Core functions of eds.go. -/

/-- newEndpoint (eds.go:125): fails when net.ParseIP rejects the address;
otherwise builds the endpoint carrying the given address and port, with
Ipv4Compat set to whether To4 of the parsed address is non-nil. -/
def newEndpoint (address : String) (port : Nat) : Except String LbEndpoint :=
  match ParseIP address with
  | none => Except.error ("Invalid IP address " ++ address)
  | some ipAddr =>
    Except.ok { address := address, portValue := port, ipv4Compat := (ipTo4 ipAddr).isSome }

/-- Appending one endpoint to the locality map of
localityLbEndpointsFromInstances: append to the group of the given zone,
creating the group on first sight (insertion-ordered association list). -/
def addToLocality : List LocalityLbEndpoints → String → LbEndpoint → List LocalityLbEndpoints
  | [], zone, ep => [{ zone := zone, lbEndpoints := [ep] }]
  | g :: rest, zone, ep =>
    if g.zone = zone then { zone := g.zone, lbEndpoints := g.lbEndpoints ++ [ep] } :: rest
    else g :: addToLocality rest zone ep

/-- Loop of localityLbEndpointsFromInstances (eds.go:209): for each
instance, build the endpoint (uint32 port conversion made explicit); on
failure log and skip the instance; otherwise add it to its zone's group. -/
def buildLocalityMap : List ServiceInstance → List LocalityLbEndpoints → List LocalityLbEndpoints
  | [], m => m
  | inst :: rest, m =>
    match newEndpoint inst.address (inst.port % 4294967296) with
    | Except.error _ => buildLocalityMap rest m
    | Except.ok ep => buildLocalityMap rest (addToLocality m inst.availabilityZone ep)

/-- localityLbEndpointsFromInstances (eds.go:207). -/
def localityLbEndpointsFromInstances (instances : List ServiceInstance) : List LocalityLbEndpoints :=
  buildLocalityMap instances []

/-- Decimal digit characters of n, most significant first, fuel-driven
(fuel n suffices since n / 10 < n); mirrors strconv.Itoa for a
non-negative value. -/
def natReprAux : Nat → Nat → List Char
  | 0, _ => []
  | fuel + 1, n =>
    if n < 10 then [Char.ofNat (48 + n)]
    else natReprAux fuel (n / 10) ++ [Char.ofNat (48 + n % 10)]

/-- strconv.Itoa restricted to non-negative values, as connectionID uses it
(the counter is incremented from zero and never negative). -/
def natRepr (n : Nat) : String := String.mk (natReprAux (n + 1) n)

/-- connectionID (eds.go:236): under the registry lock, increment the
process-wide counter and embed the fresh value after the node id and a
dash.  Takes and returns the counter explicitly. -/
def connectionID (node : String) (counter : Nat) : String × Nat :=
  let c := counter + 1
  (node ++ "-" ++ natRepr c, c)

/-- updateCluster (eds.go:153): resolve the instances for the cluster name
(the parsing of the name and the registry lookup abstracted as env); on
lookup error, report the error and leave the entry untouched; on success,
replace the snapshot and record nonEmptyTime when a non-empty group list
first appears. -/
def updateCluster (env : Env) (clusterName : String) (edsCluster : EdsCluster) (now : Nat) :
    Except String EdsCluster :=
  match env clusterName with
  | Except.error err => Except.error err
  | Except.ok instances =>
    let locEps := localityLbEndpointsFromInstances instances
    Except.ok
      { edsCluster with
        loadAssignment := some { clusterName := clusterName, endpoints := locEps }
        nonEmptyTime :=
          if 0 < locEps.length ∧ edsCluster.nonEmptyTime = 0 then now
          else edsCluster.nonEmptyTime }

/-- loadAssignment (eds.go:119): the lock-protected read of the snapshot. -/
def loadAssignment (c : EdsCluster) : Option ClusterLoadAssignment := c.loadAssignment

/-- The fresh entry getOrAddEdsCluster inserts. -/
def freshEdsCluster (now : Nat) : EdsCluster :=
  { loadAssignment := none, firstUse := now, edsClients := [], nonEmptyTime := 0 }

/-- getEdsCluster (eds.go:445). -/
def getEdsCluster (reg : Registry) (clusterName : String) : Option EdsCluster :=
  mapLookup reg clusterName

/-- getOrAddEdsCluster (eds.go:452): return the existing entry, or insert a
fresh one (empty watcher set, nil snapshot, FirstUse = now). -/
def getOrAddEdsCluster (reg : Registry) (clusterName : String) (now : Nat) :
    Registry × EdsCluster :=
  match mapLookup reg clusterName with
  | some c => (reg, c)
  | none => (mapInsert reg clusterName (freshEdsCluster now), freshEdsCluster now)

/-- addEdsCon (eds.go:423): register the connection as a watcher of the
cluster under the node key, creating the entry when absent. -/
def addEdsCon (reg : Registry) (clusterName : String) (node : String) (connection : XdsConnection)
    (now : Nat) : Registry :=
  let (reg1, c) := getOrAddEdsCluster reg clusterName now
  mapInsert reg1 clusterName { c with edsClients := mapInsert c.edsClients node connection }

/-- removeEdsCon (eds.go:469): look up the cluster; on a missing cluster, a
missing watcher, or a watcher that is a different connection (pointer
comparison, modelled by connId), do nothing; otherwise delete the watcher
and, when the watcher set becomes empty, delete the entry from the
registry. -/
def removeEdsCon (reg : Registry) (clusterName : String) (node : String)
    (connection : XdsConnection) : Registry :=
  match getEdsCluster reg clusterName with
  | none => reg
  | some c =>
    match mapLookup c.edsClients node with
    | none => reg
    | some oldcon =>
      if oldcon.connId ≠ connection.connId then reg
      else
        let clients' := mapDelete c.edsClients node
        if clients' = [] then mapDelete reg clusterName
        else mapInsert reg clusterName { c with edsClients := clients' }

/-- Outcome of a Go send on the one-slot buffered pushChannel: when the
buffer is empty the event is enqueued and the sender proceeds; when the
buffer already holds an unconsumed event the sender blocks. -/
inductive ChanSend (α : Type) where
  | enqueued (buf : Option α)
  | blocked
deriving DecidableEq

/-- Go's `ch <- ev` on a channel of capacity one whose buffer is buf. -/
def pushChannelSend {α : Type} (buf : Option α) (ev : α) : ChanSend α :=
  match buf with
  | none => ChanSend.enqueued (some ev)
  | some _ => ChanSend.blocked

/-- The signalling loop of edsPushAll (eds.go:413): one send per watcher of
the cluster, carrying the cluster name. -/
def signalOutcomes (c : EdsCluster) (ev : XdsEvent) : List (ChanSend XdsEvent) :=
  c.edsClients.map (fun p => pushChannelSend p.2.pushBuf ev)

/-- edsPushAll (eds.go:398): over a point-in-time copy of the registry,
recompute every entry; on failure skip the entry, leaving it unchanged; on
success install the new snapshot and send a push event to every watcher.
Returns the new registry and, per successfully updated cluster, the send
outcomes of its watchers. -/
def edsPushAll (env : Env) (reg : Registry) (now : Nat) :
    Registry × List (String × List (ChanSend XdsEvent)) :=
  (reg.map (fun p =>
      match updateCluster env p.1 p.2 now with
      | Except.ok c' => (p.1, c')
      | Except.error _ => p),
   reg.filterMap (fun p =>
      match updateCluster env p.1 p.2 now with
      | Except.ok c' => some (p.1, signalOutcomes c' { clusters := [p.1] })
      | Except.error _ => none))

/-- Per-cluster body of pushEds (eds.go:362-381): fetch or create the
entry; when the snapshot is nil, recompute synchronously, skipping the
cluster when recomputation fails; return the load assignment serialized
into the response (none = this cluster contributes nothing). -/
def pushEdsCluster (env : Env) (reg : Registry) (clusterName : String) (now : Nat) :
    Registry × Option ClusterLoadAssignment :=
  let (reg1, c) := getOrAddEdsCluster reg clusterName now
  match loadAssignment c with
  | some l => (reg1, some l)
  | none =>
    match updateCluster env clusterName c now with
    | Except.error _ => (reg1, none)
    | Except.ok c' => (mapInsert reg1 clusterName c', loadAssignment c')

/-- pushEds (eds.go:355): accumulate the load assignments of all watched
clusters, left to right, and send them in one response (the response
envelope's version and nonce are environment-supplied and omitted). -/
def pushEds (env : Env) (reg : Registry) (clusters : List String) (now : Nat) :
    Registry × List ClusterLoadAssignment :=
  match clusters with
  | [] => (reg, [])
  | clusterName :: rest =>
    let (reg1, r) := pushEdsCluster env reg clusterName now
    let (reg2, rs) := pushEds env reg1 rest now
    match r with
    | none => (reg2, rs)
    | some l => (reg2, l :: rs)

/-- Request-processing section of the StreamEndpoints loop (eds.go:287-340).
Returns the new registry, the new handler state, and whether the event was
treated as a pure acknowledgment (the `continue` path that skips the push).
The Connection Directory bookkeeping (addCon/removeCon) lives outside this
source file; the added flag is still tracked. -/
def handleRequestEvent (reg : Registry) (hs : HandlerState) (connection : XdsConnection)
    (req : DiscoveryRequest) (now : Nat) : Registry × HandlerState × Bool :=
  let idc : String × Nat :=
    if hs.conID = "" then
      match req.node with
      | some nodeId => connectionID nodeId hs.counter
      | none => (hs.conID, hs.counter)
    else (hs.conID, hs.counter)
  let clusters2 := req.resourceNames
  let initial1 : Bool :=
    if hs.initialRequestReceived = true ∧ hs.clusters.length < clusters2.length then false
    else hs.initialRequestReceived
  if initial1 = true ∧ 0 < hs.clusters.length then
    (reg, { hs with conID := idc.1, counter := idc.2 }, true)
  else
    let clusters' := req.resourceNames
    let reg' := clusters'.foldl (fun r c => addEdsCon r c idc.1 connection now) reg
    (reg',
     { initialRequestReceived := true, conID := idc.1, clusters := clusters',
       added := true, counter := idc.2 }, false)

/-- The two event sources of the StreamEndpoints multiplex loop. -/
inductive StreamEvent where
  | request (req : DiscoveryRequest)
  | pushSignal (ev : XdsEvent)
deriving DecidableEq

/-- One iteration of the StreamEndpoints loop (eds.go:284-352): process the
event; unless the request was consumed as a pure acknowledgment, push the
current state of every watched cluster when the watched set is non-empty.
The third component is the response sent, none when no response is sent. -/
def streamIteration (env : Env) (reg : Registry) (hs : HandlerState)
    (connection : XdsConnection) (sev : StreamEvent) (now : Nat) :
    Registry × HandlerState × Option (List ClusterLoadAssignment) :=
  match sev with
  | StreamEvent.request req =>
    let (reg1, hs1, continued) := handleRequestEvent reg hs connection req now
    if continued then (reg1, hs1, none)
    else if 0 < hs1.clusters.length then
      let (reg2, res) := pushEds env reg1 hs1.clusters now
      (reg2, hs1, some res)
    else (reg1, hs1, none)
  | StreamEvent.pushSignal _ =>
    if 0 < hs.clusters.length then
      let (reg2, res) := pushEds env reg hs.clusters now
      (reg2, hs, some res)
    else (reg, hs, none)

/-- Decimal value of a digit string, used to reason about natRepr. -/
def decVal (l : List Char) : Nat := l.foldl (fun a c => a * 10 + (c.toNat - 48)) 0

/-! ### Theorems. -/

theorem parseIP_v4_example : ParseIP "10.1.1.1" = some (v4InV6 10 1 1 1) := by decide

theorem parseIP_v6_example :
    ParseIP "::ffff:1.2.3.4" = some (v4InV6 1 2 3 4) := by decide

theorem parseIP_bad_example : ParseIP "not-an-ip" = none := by decide

theorem mapLookup_mapInsert_self {α : Type} (m : List (String × α)) (k : String) (v : α) :
    mapLookup (mapInsert m k v) k = some v := by
  induction m with
  | nil => simp [mapInsert, mapLookup]
  | cons p rest ih =>
    obtain ⟨k0, v0⟩ := p
    by_cases h : k0 = k
    · simp [mapInsert, h, mapLookup]
    · simp [mapInsert, h, mapLookup, ih]

theorem mapLookup_mapInsert_other {α : Type} (m : List (String × α)) (k k' : String) (v : α)
    (hne : k ≠ k') : mapLookup (mapInsert m k v) k' = mapLookup m k' := by
  induction m with
  | nil => simp [mapInsert, mapLookup, hne]
  | cons p rest ih =>
    obtain ⟨k0, v0⟩ := p
    by_cases h : k0 = k
    · subst h
      simp [mapInsert, mapLookup, hne]
    · simp [mapInsert, h, mapLookup, ih]

theorem mapLookup_mapDelete_self {α : Type} (m : List (String × α)) (k : String) :
    mapLookup (mapDelete m k) k = none := by
  induction m with
  | nil => simp [mapDelete, mapLookup]
  | cons p rest ih =>
    obtain ⟨k0, v0⟩ := p
    by_cases h : k0 = k
    · simp [mapDelete, h, ih]
    · simp [mapDelete, h, mapLookup, ih]

/-! #### Decimal representation: digits only, and injective. -/

theorem charDigit_toNat (d : Nat) (h : d < 10) : (Char.ofNat (48 + d)).toNat = 48 + d := by
  interval_cases d <;> decide

theorem decVal_append_digit (l : List Char) (c : Char) :
    decVal (l ++ [c]) = decVal l * 10 + (c.toNat - 48) := by
  simp [decVal, List.foldl_append]

theorem natReprAux_val (fuel n : Nat) (h : n < fuel) : decVal (natReprAux fuel n) = n := by
  induction fuel generalizing n with
  | zero => omega
  | succ fuel ih =>
    by_cases hn : n < 10
    · simp [natReprAux, hn, decVal, charDigit_toNat n hn]
    · have hdiv : n / 10 < n := Nat.div_lt_self (by omega) (by omega)
      have hmod : n % 10 < 10 := Nat.mod_lt n (by omega)
      have hdm := Nat.div_add_mod n 10
      simp only [natReprAux, hn, if_false]
      rw [decVal_append_digit, ih (n / 10) (by omega), charDigit_toNat (n % 10) hmod]
      omega

theorem natReprAux_digits (fuel n : Nat) (c : Char) (h : c ∈ natReprAux fuel n) :
    48 ≤ c.toNat ∧ c.toNat ≤ 57 := by
  induction fuel generalizing n with
  | zero => simp [natReprAux] at h
  | succ fuel ih =>
    by_cases hn : n < 10
    · simp [natReprAux, hn] at h
      subst h
      rw [charDigit_toNat n hn]
      omega
    · simp only [natReprAux, hn, if_false, List.mem_append, List.mem_singleton] at h
      rcases h with h | h
      · exact ih (n / 10) h
      · subst h
        have hmod : n % 10 < 10 := Nat.mod_lt n (by omega)
        rw [charDigit_toNat (n % 10) hmod]
        omega

theorem hyphen_not_mem_natReprAux (fuel n : Nat) : '-' ∉ natReprAux fuel n := by
  intro h
  have := natReprAux_digits fuel n '-' h
  revert this
  decide

theorem natRepr_inj (n1 n2 : Nat) (h : natRepr n1 = natRepr n2) : n1 = n2 := by
  have hdata : natReprAux (n1 + 1) n1 = natReprAux (n2 + 1) n2 := congrArg String.data h
  have h1 := natReprAux_val (n1 + 1) n1 (by omega)
  have h2 := natReprAux_val (n2 + 1) n2 (by omega)
  rw [hdata, h2] at h1
  omega

theorem sep_decomp (x1 y1 x2 y2 : List Char)
    (h : x1 ++ '-' :: y1 = x2 ++ '-' :: y2)
    (h1 : '-' ∉ x1) (h2 : '-' ∉ x2) : x1 = x2 ∧ y1 = y2 := by
  induction x1 generalizing x2 with
  | nil =>
    cases x2 with
    | nil => simpa using h
    | cons c2 t2 =>
      simp only [List.nil_append, List.cons_append, List.cons.injEq] at h
      exact absurd (h.1 ▸ List.mem_cons_self c2 t2) h2
  | cons c t ih =>
    cases x2 with
    | nil =>
      simp only [List.nil_append, List.cons_append, List.cons.injEq] at h
      exact absurd (h.1 ▸ List.mem_cons_self c t) h1
    | cons c2 t2 =>
      simp only [List.cons_append, List.cons.injEq] at h
      have hrec := ih t2 h.2 (fun hm => h1 (List.mem_cons_of_mem c hm))
        (fun hm => h2 (List.mem_cons_of_mem c2 hm))
      exact ⟨by rw [h.1, hrec.1], hrec.2⟩

/-- C9: two distinct calls to the connection-identity generator return
distinct identity strings, for any node identifiers and in particular for
equal ones: each call embeds the fresh value of the process-wide counter,
incremented under the registry lock, so the counter values of two distinct
calls differ; the decimal counter suffix contains no dash, so the identity
string determines the counter value. -/
theorem connectionID_unique (node1 node2 : String) (c1 c2 : Nat) (hne : c1 ≠ c2) :
    (connectionID node1 c1).1 ≠ (connectionID node2 c2).1 := by
  intro heq
  have heq' : node1 ++ "-" ++ natRepr (c1 + 1) = node2 ++ "-" ++ natRepr (c2 + 1) := heq
  have hrev : (natRepr (c1 + 1)).data.reverse ++ '-' :: node1.data.reverse
      = (natRepr (c2 + 1)).data.reverse ++ '-' :: node2.data.reverse := by
    have h := congrArg (fun s : String => s.data.reverse) heq'
    simpa [String.data_append, List.reverse_append,
      show ("-" : String).data = ['-'] from rfl] using h
  have hnod1 : '-' ∉ (natRepr (c1 + 1)).data.reverse := by
    rw [List.mem_reverse]
    exact hyphen_not_mem_natReprAux _ _
  have hnod2 : '-' ∉ (natRepr (c2 + 1)).data.reverse := by
    rw [List.mem_reverse]
    exact hyphen_not_mem_natReprAux _ _
  have hd := sep_decomp _ _ _ _ hrev hnod1 hnod2
  have hdat : (natRepr (c1 + 1)).data = (natRepr (c2 + 1)).data := by
    have h := congrArg List.reverse hd.1
    simpa using h
  have hstr : natRepr (c1 + 1) = natRepr (c2 + 1) := by
    cases hq1 : natRepr (c1 + 1) with
    | mk d1 =>
      cases hq2 : natRepr (c2 + 1) with
      | mk d2 =>
        rw [hq1, hq2] at hdat
        exact congrArg String.mk hdat
  have hinj := natRepr_inj (c1 + 1) (c2 + 1) hstr
  omega

/-- Witness for connectionID_unique: the same node identifier at counter
values 0 and 1 gives distinct identities. -/
theorem connectionID_unique_witness :
    (connectionID "sidecar" 0).1 ≠ (connectionID "sidecar" 1).1 :=
  connectionID_unique "sidecar" "sidecar" 0 1 (by decide)

/-- C2 counterexample: a global invalidation cycle over one entry whose
single watcher already carries an unconsumed pending-push signal makes the
broadcaster's channel send block — the send on the full one-slot channel is
not a no-op, refuting the claim that the broadcaster never blocks on a
watcher with an unconsumed signal. -/
theorem edsPushAll_blocks_on_pending_signal_counterexample :
    (edsPushAll (fun _ => Except.ok [])
        [("svc-a",
          { loadAssignment := none, firstUse := 1,
            edsClients :=
              [("node-1", { connId := 1, pushBuf := some { clusters := ["svc-a"] } })],
            nonEmptyTime := 0 })] 5).2
      = [("svc-a", [ChanSend.blocked])] := by decide

/-- C2 amended: during a global invalidation cycle the broadcaster performs
one channel send per watcher of each successfully recomputed entry; a
watcher with an empty signal slot is signalled without blocking, while a
watcher already carrying an unconsumed signal blocks the broadcaster until
the watcher drains its slot — the send is a blocking enqueue, not a no-op. -/
theorem edsPushAll_signal_semantics (c : EdsCluster) (ev : XdsEvent) (node : String)
    (conn : XdsConnection) (hmem : (node, conn) ∈ c.edsClients) :
    pushChannelSend conn.pushBuf ev ∈ signalOutcomes c ev
    ∧ (conn.pushBuf = none → pushChannelSend conn.pushBuf ev = ChanSend.enqueued (some ev))
    ∧ (conn.pushBuf ≠ none → pushChannelSend conn.pushBuf ev = ChanSend.blocked) := by
  refine ⟨?_, ?_, ?_⟩
  · exact List.mem_map_of_mem (fun p => pushChannelSend p.2.pushBuf ev) hmem
  · intro h
    rw [h]
    rfl
  · intro h
    cases hb : conn.pushBuf with
    | none => exact absurd hb h
    | some e0 => rfl

/-- Witness for edsPushAll_signal_semantics: one watcher with a full slot. -/
theorem edsPushAll_signal_semantics_witness :
    pushChannelSend (XdsConnection.mk 2 (some (XdsEvent.mk ["svc-a"]))).pushBuf
        (XdsEvent.mk ["x"])
      ∈ signalOutcomes
          (EdsCluster.mk none 0 [("n", XdsConnection.mk 2 (some (XdsEvent.mk ["svc-a"])))] 0)
          (XdsEvent.mk ["x"])
    ∧ ((XdsConnection.mk 2 (some (XdsEvent.mk ["svc-a"]))).pushBuf = none →
        pushChannelSend (XdsConnection.mk 2 (some (XdsEvent.mk ["svc-a"]))).pushBuf
            (XdsEvent.mk ["x"])
          = ChanSend.enqueued (some (XdsEvent.mk ["x"])))
    ∧ ((XdsConnection.mk 2 (some (XdsEvent.mk ["svc-a"]))).pushBuf ≠ none →
        pushChannelSend (XdsConnection.mk 2 (some (XdsEvent.mk ["svc-a"]))).pushBuf
            (XdsEvent.mk ["x"])
          = ChanSend.blocked) :=
  edsPushAll_signal_semantics _ _ "n" _ (by decide)

/-- C5: removing a watcher whose removal empties the entry's watcher set
also deletes the entry from the registry; when at least one watcher
remains, the entry stays, with only the watcher set shrunk. -/
theorem removeEdsCon_prunes_iff_empty (reg : Registry) (clusterName node : String)
    (connection oldcon : XdsConnection) (c : EdsCluster)
    (hc : mapLookup reg clusterName = some c)
    (hw : mapLookup c.edsClients node = some oldcon)
    (hid : oldcon.connId = connection.connId) :
    (mapDelete c.edsClients node = [] →
       mapLookup (removeEdsCon reg clusterName node connection) clusterName = none)
    ∧ (mapDelete c.edsClients node ≠ [] →
       mapLookup (removeEdsCon reg clusterName node connection) clusterName
         = some { c with edsClients := mapDelete c.edsClients node }) := by
  constructor
  · intro h
    simp [removeEdsCon, getEdsCluster, hc, hw, hid, h, mapLookup_mapDelete_self]
  · intro h
    simp [removeEdsCon, getEdsCluster, hc, hw, hid, h, mapLookup_mapInsert_self]

/-- Witness for removeEdsCon_prunes_iff_empty: the sole watcher of svc-a is
removed and the entry is pruned. -/
theorem removeEdsCon_prunes_iff_empty_witness :
    mapLookup
        (removeEdsCon
          [("svc-a", EdsCluster.mk none 1 [("node-1", XdsConnection.mk 7 none)] 0)]
          "svc-a" "node-1" (XdsConnection.mk 7 none))
        "svc-a" = none :=
  (removeEdsCon_prunes_iff_empty
      [("svc-a", EdsCluster.mk none 1 [("node-1", XdsConnection.mk 7 none)] 0)]
      "svc-a" "node-1" (XdsConnection.mk 7 none) (XdsConnection.mk 7 none)
      (EdsCluster.mk none 1 [("node-1", XdsConnection.mk 7 none)] 0)
      rfl rfl rfl).1 rfl

/-- C7: newEndpoint succeeds exactly when the address parses as an IP
literal; on success the endpoint carries the input address and port
unchanged and its Ipv4Compat flag is the non-nil-ness of To4 of the parsed
address; on failure it returns the invalid-address error. -/
theorem newEndpoint_address_validation (address : String) (port : Nat) :
    ((∃ ep, newEndpoint address port = Except.ok ep) ↔ (ParseIP address).isSome = true)
    ∧ (∀ ep, newEndpoint address port = Except.ok ep →
        ep.address = address ∧ ep.portValue = port ∧
          ∃ ip, ParseIP address = some ip ∧ ep.ipv4Compat = (ipTo4 ip).isSome)
    ∧ (∀ e, newEndpoint address port = Except.error e →
        ParseIP address = none ∧ e = "Invalid IP address " ++ address) := by
  cases hp : ParseIP address with
  | none =>
    refine ⟨?_, ?_, ?_⟩
    · simp [newEndpoint, hp]
    · intro ep h
      simp [newEndpoint, hp] at h
    · intro e h
      simp only [newEndpoint, hp] at h
      refine ⟨rfl, ?_⟩
      injection h with h'
      exact h'.symm
  | some ip =>
    refine ⟨?_, ?_, ?_⟩
    · simp [newEndpoint, hp]
    · intro ep h
      simp only [newEndpoint, hp] at h
      injection h with h'
      subst h'
      exact ⟨rfl, rfl, ip, rfl, rfl⟩
    · intro e h
      simp [newEndpoint, hp] at h

/-- Witness for newEndpoint_address_validation at an invalid address. -/
theorem newEndpoint_address_validation_witness :
    ParseIP "not-an-ip" = none
    ∧ ("Invalid IP address " ++ "not-an-ip" : String) = "Invalid IP address " ++ "not-an-ip" :=
  (newEndpoint_address_validation "not-an-ip" 80).2.2 ("Invalid IP address " ++ "not-an-ip") rfl

/-- C8: a successful recomputation sets the first-non-empty timestamp to the
current time exactly when the newly computed group list is non-empty and
the timestamp was previously unset; a timestamp once set is never changed
by a later recomputation; a recomputation from zero instances leaves the
timestamp as it was (in particular unset). -/
theorem updateCluster_nonEmptyTime (env : Env) (clusterName : String) (c c' : EdsCluster)
    (now : Nat) (instances : List ServiceInstance)
    (hok : env clusterName = Except.ok instances)
    (hup : updateCluster env clusterName c now = Except.ok c')
    (hnow : 0 < now) :
    (c.nonEmptyTime ≠ 0 → c'.nonEmptyTime = c.nonEmptyTime)
    ∧ (c.nonEmptyTime = 0 →
        (c'.nonEmptyTime = now ↔ localityLbEndpointsFromInstances instances ≠ []))
    ∧ (instances = [] → c'.nonEmptyTime = c.nonEmptyTime) := by
  simp only [updateCluster, hok] at hup
  injection hup with hup
  subst hup
  refine ⟨?_, ?_, ?_⟩
  · intro h
    simp [h]
  · intro h
    by_cases hl : localityLbEndpointsFromInstances instances = []
    · simp only [hl, List.length_nil, Nat.lt_irrefl, false_and, if_false, ite_false, h]
      constructor
      · intro h0
        omega
      · intro hne
        exact absurd rfl hne
    · have hpos : 0 < (localityLbEndpointsFromInstances instances).length :=
        List.length_pos.mpr hl
      simp [h, hl, hpos]
  · intro h
    subst h
    simp [localityLbEndpointsFromInstances, buildLocalityMap]

/-- Witness for updateCluster_nonEmptyTime: a recomputation from zero
instances leaves the fresh entry's timestamp unchanged. -/
theorem updateCluster_nonEmptyTime_witness :
    ({ loadAssignment := some { clusterName := "svc-a", endpoints := [] },
       firstUse := 1, edsClients := [], nonEmptyTime := 0 } : EdsCluster).nonEmptyTime
      = (freshEdsCluster 1).nonEmptyTime :=
  (updateCluster_nonEmptyTime (fun _ => Except.ok []) "svc-a" (freshEdsCluster 1)
      ({ loadAssignment := some { clusterName := "svc-a", endpoints := [] },
         firstUse := 1, edsClients := [], nonEmptyTime := 0 }) 5 [] rfl rfl
      (by omega)).2.2 rfl

/-- A successful updateCluster always installs a non-nil load assignment. -/
theorem updateCluster_ok_loadAssignment (env : Env) (clusterName : String) (c c' : EdsCluster)
    (now : Nat) (h : updateCluster env clusterName c now = Except.ok c') :
    (loadAssignment c').isSome = true := by
  cases he : env clusterName with
  | error e =>
    simp only [updateCluster, he] at h
    simp at h
  | ok instances =>
    simp only [updateCluster, he] at h
    injection h with h
    subst h
    rfl

/-- C10: a successful recomputation always installs a non-nil load
assignment, so the snapshot pushEds dereferences (either the entry's
existing one or the one a successful synchronous recomputation installed)
is non-nil; the per-cluster push step skips a cluster — before any
dereference — exactly when the entry is fresh (nil snapshot) and the
recomputation fails. -/
theorem pushEds_deref_nonnil (env : Env) (reg : Registry) (clusterName : String)
    (c : EdsCluster) (now : Nat) :
    (∀ c', updateCluster env clusterName c now = Except.ok c' →
       (loadAssignment c').isSome = true)
    ∧ ((pushEdsCluster env reg clusterName now).2 = none ↔
        loadAssignment (getOrAddEdsCluster reg clusterName now).2 = none ∧
          ∃ e, updateCluster env clusterName (getOrAddEdsCluster reg clusterName now).2 now
                = Except.error e) := by
  constructor
  · intro c' h
    exact updateCluster_ok_loadAssignment env clusterName c c' now h
  · cases hga : getOrAddEdsCluster reg clusterName now with
    | mk reg1 c0 =>
      simp only [pushEdsCluster, hga]
      cases hl : loadAssignment c0 with
      | some l => simp [hl]
      | none =>
        cases hu : updateCluster env clusterName c0 now with
        | error e => simp [hu, hl]
        | ok c' =>
          have hs := updateCluster_ok_loadAssignment env clusterName c0 c' now hu
          obtain ⟨x, hx⟩ := Option.isSome_iff_exists.mp hs
          simp [hu, hl, hx]

/-! #### Registration and push lemmas. -/

theorem getOrAddEdsCluster_lookup (reg : Registry) (clusterName : String) (now : Nat) :
    mapLookup (getOrAddEdsCluster reg clusterName now).1 clusterName
      = some (getOrAddEdsCluster reg clusterName now).2 := by
  unfold getOrAddEdsCluster
  cases h : mapLookup reg clusterName with
  | some c => simpa using h
  | none => simp [mapLookup_mapInsert_self]

theorem getOrAddEdsCluster_lookup_other (reg : Registry) (m n : String) (now : Nat)
    (hmn : m ≠ n) :
    mapLookup (getOrAddEdsCluster reg m now).1 n = mapLookup reg n := by
  unfold getOrAddEdsCluster
  cases h : mapLookup reg m with
  | some c => simp
  | none => simp [mapLookup_mapInsert_other _ _ _ _ hmn]

theorem addEdsCon_registers (reg : Registry) (n conID : String) (conn : XdsConnection)
    (now : Nat) :
    ∃ e, mapLookup (addEdsCon reg n conID conn now) n = some e
      ∧ mapLookup e.edsClients conID = some conn := by
  unfold addEdsCon
  cases hga : getOrAddEdsCluster reg n now with
  | mk reg1 c =>
    exact ⟨_, mapLookup_mapInsert_self _ _ _, mapLookup_mapInsert_self _ _ _⟩

theorem addEdsCon_lookup_other (reg : Registry) (m n conID : String) (conn : XdsConnection)
    (now : Nat) (hmn : m ≠ n) :
    mapLookup (addEdsCon reg m conID conn now) n = mapLookup reg n := by
  unfold addEdsCon
  cases hga : getOrAddEdsCluster reg m now with
  | mk reg1 c =>
    have h1 := getOrAddEdsCluster_lookup_other reg m n now hmn
    rw [hga] at h1
    simp only []
    rw [mapLookup_mapInsert_other _ _ _ _ hmn]
    exact h1

theorem addEdsCon_preserves (reg : Registry) (n m conID : String) (conn : XdsConnection)
    (now : Nat) (e : EdsCluster)
    (hl : mapLookup reg n = some e) (hw : mapLookup e.edsClients conID = some conn) :
    ∃ e', mapLookup (addEdsCon reg m conID conn now) n = some e'
      ∧ mapLookup e'.edsClients conID = some conn := by
  by_cases hmn : m = n
  · subst hmn
    exact addEdsCon_registers reg m conID conn now
  · refine ⟨e, ?_, hw⟩
    rw [addEdsCon_lookup_other reg m n conID conn now hmn]
    exact hl

theorem foldl_addEdsCon_preserves (names : List String) (reg : Registry) (n conID : String)
    (conn : XdsConnection) (now : Nat) (e : EdsCluster)
    (hl : mapLookup reg n = some e) (hw : mapLookup e.edsClients conID = some conn) :
    ∃ e', mapLookup (names.foldl (fun r c => addEdsCon r c conID conn now) reg) n = some e'
      ∧ mapLookup e'.edsClients conID = some conn := by
  induction names generalizing reg e with
  | nil => exact ⟨e, hl, hw⟩
  | cons m rest ih =>
    rw [List.foldl_cons]
    obtain ⟨e1, h1, h2⟩ := addEdsCon_preserves reg n m conID conn now e hl hw
    exact ih (addEdsCon reg m conID conn now) e1 h1 h2

theorem foldl_addEdsCon_registers (names : List String) (reg : Registry) (conID : String)
    (conn : XdsConnection) (now : Nat) :
    ∀ n ∈ names,
      ∃ e, mapLookup (names.foldl (fun r c => addEdsCon r c conID conn now) reg) n = some e
        ∧ mapLookup e.edsClients conID = some conn := by
  induction names generalizing reg with
  | nil =>
    intro n hn
    simp at hn
  | cons m rest ih =>
    intro n hn
    rw [List.foldl_cons]
    rcases List.mem_cons.mp hn with h | h
    · subst h
      obtain ⟨e, h1, h2⟩ := addEdsCon_registers reg n conID conn now
      exact foldl_addEdsCon_preserves rest (addEdsCon reg n conID conn now) n conID conn now
        e h1 h2
    · exact ih (addEdsCon reg m conID conn now) n h

/-- Witness for pushEds_deref_nonnil: a successful recomputation of a fresh
entry yields a non-nil load assignment. -/
theorem pushEds_deref_nonnil_witness :
    (loadAssignment
        ({ loadAssignment := some { clusterName := "svc-a", endpoints := [] },
           firstUse := 0, edsClients := [], nonEmptyTime := 0 } : EdsCluster)).isSome = true :=
  (pushEds_deref_nonnil (fun _ => Except.ok []) [] "svc-a" (freshEdsCluster 0) 5).1
    ({ loadAssignment := some { clusterName := "svc-a", endpoints := [] },
       firstUse := 0, edsClients := [], nonEmptyTime := 0 }) rfl

/-- C1: a request that arrives in Established state with a resource-name
set strictly larger than the one previously recorded (the code compares
set sizes) is handled exactly like a first request: the handler result is
identical to processing the same request with the first-request flag
cleared; the watched set is replaced by the new set, the event is not
consumed as an acknowledgment, and the connection is registered as a
watcher of every named resource, creating cache entries as needed. -/
theorem streamEndpoints_superset_as_first_request (reg : Registry) (hs : HandlerState)
    (connection : XdsConnection) (req : DiscoveryRequest) (now : Nat)
    (hinit : hs.initialRequestReceived = true)
    (hgt : hs.clusters.length < req.resourceNames.length) :
    handleRequestEvent reg hs connection req now
      = handleRequestEvent reg { hs with initialRequestReceived := false } connection req now
    ∧ (handleRequestEvent reg hs connection req now).2.1.clusters = req.resourceNames
    ∧ (handleRequestEvent reg hs connection req now).2.2 = false
    ∧ ∀ n ∈ req.resourceNames,
        ∃ e, mapLookup (handleRequestEvent reg hs connection req now).1 n = some e
          ∧ mapLookup e.edsClients (handleRequestEvent reg hs connection req now).2.1.conID
              = some connection := by
  refine ⟨?_, ?_, ?_, ?_⟩
  · simp [handleRequestEvent, hinit, hgt]
  · simp [handleRequestEvent, hinit, hgt]
  · simp [handleRequestEvent, hinit, hgt]
  · intro n hn
    have h1 : (handleRequestEvent reg hs connection req now).1
        = req.resourceNames.foldl
            (fun r c =>
              addEdsCon r c (handleRequestEvent reg hs connection req now).2.1.conID
                connection now) reg := by
      simp [handleRequestEvent, hinit, hgt]
    rw [h1]
    exact foldl_addEdsCon_registers _ _ _ _ _ n hn

/-- Witness for streamEndpoints_superset_as_first_request: growing the
watch from one name to two replaces the watched set with the new one. -/
theorem streamEndpoints_superset_witness :
    (handleRequestEvent [] (HandlerState.mk true "node-7" ["svc-a"] true 3)
        (XdsConnection.mk 9 none)
        (DiscoveryRequest.mk none ["svc-a", "svc-b"] "" false) 2).2.1.clusters
      = ["svc-a", "svc-b"] :=
  (streamEndpoints_superset_as_first_request [] (HandlerState.mk true "node-7" ["svc-a"] true 3)
      (XdsConnection.mk 9 none) (DiscoveryRequest.mk none ["svc-a", "svc-b"] "" false) 2
      rfl (by decide)).2.1

/-- C3: a request that arrives in Established state with an equal-or-smaller
resource-name set (the code compares set sizes) while at least one resource
is watched is a pure acknowledgment: the registry (hence every cache entry)
and the watched set are left unchanged and no response is sent for the
event. -/
theorem streamEndpoints_ack_no_action (env : Env) (reg : Registry) (hs : HandlerState)
    (connection : XdsConnection) (req : DiscoveryRequest) (now : Nat)
    (hinit : hs.initialRequestReceived = true)
    (hle : req.resourceNames.length ≤ hs.clusters.length)
    (hne : hs.clusters ≠ []) :
    (streamIteration env reg hs connection (StreamEvent.request req) now).1 = reg
    ∧ (streamIteration env reg hs connection (StreamEvent.request req) now).2.1.clusters
        = hs.clusters
    ∧ (streamIteration env reg hs connection
        (StreamEvent.request req) now).2.1.initialRequestReceived = true
    ∧ (streamIteration env reg hs connection (StreamEvent.request req) now).2.2 = none := by
  have hnlt : ¬ (hs.clusters.length < req.resourceNames.length) := by omega
  have hpos : 0 < hs.clusters.length := List.length_pos.mpr hne
  refine ⟨?_, ?_, ?_, ?_⟩
  · simp [streamIteration, handleRequestEvent, hinit, hnlt, hpos]
  · simp [streamIteration, handleRequestEvent, hinit, hnlt, hpos]
  · simp [streamIteration, handleRequestEvent, hinit, hnlt, hpos]
  · simp [streamIteration, handleRequestEvent, hinit, hnlt, hpos]

/-- Witness for streamEndpoints_ack_no_action: re-sending the same single
watched name sends no response. -/
theorem streamEndpoints_ack_no_action_witness :
    (streamIteration (fun _ => Except.ok []) [] (HandlerState.mk true "node-1" ["svc-a"] true 1)
        (XdsConnection.mk 3 none)
        (StreamEvent.request (DiscoveryRequest.mk (some "n") ["svc-a"] "v1" false)) 7).2.2
      = none :=
  (streamEndpoints_ack_no_action (fun _ => Except.ok []) []
      (HandlerState.mk true "node-1" ["svc-a"] true 1) (XdsConnection.mk 3 none)
      (DiscoveryRequest.mk (some "n") ["svc-a"] "v1" false) 7 rfl (by decide)
      (by decide)).2.2.2

/-- C4: when the registry lookup for a resource fails, the recomputation
reports the error and the entry's snapshot and first-non-empty timestamp
are exactly as before (for the push path, the fetched-or-created entry is
returned unchanged); the push skips that resource — it contributes nothing
to the response, which equals the push of the remaining resources — while
any resource whose lookup succeeds always contributes a snapshot. -/
theorem pushEds_error_isolated (env : Env) (reg : Registry) (clusterName : String)
    (rest : List String) (now : Nat) (e : String)
    (herr : env clusterName = Except.error e)
    (hfresh : loadAssignment (getOrAddEdsCluster reg clusterName now).2 = none) :
    updateCluster env clusterName (getOrAddEdsCluster reg clusterName now).2 now
        = Except.error e
    ∧ (pushEdsCluster env reg clusterName now).2 = none
    ∧ mapLookup (pushEdsCluster env reg clusterName now).1 clusterName
        = some (getOrAddEdsCluster reg clusterName now).2
    ∧ (pushEds env reg (clusterName :: rest) now).2
        = (pushEds env (pushEdsCluster env reg clusterName now).1 rest now).2
    ∧ ∀ (reg2 : Registry) (m : String) (instances : List ServiceInstance),
        env m = Except.ok instances → ((pushEdsCluster env reg2 m now).2).isSome = true := by
  have hupd : updateCluster env clusterName (getOrAddEdsCluster reg clusterName now).2 now
      = Except.error e := by
    simp [updateCluster, herr]
  have hcl : pushEdsCluster env reg clusterName now
      = ((getOrAddEdsCluster reg clusterName now).1, none) := by
    cases hga : getOrAddEdsCluster reg clusterName now with
    | mk reg1 c0 =>
      rw [hga] at hfresh hupd
      simp [pushEdsCluster, hga, hfresh, hupd]
  refine ⟨hupd, ?_, ?_, ?_, ?_⟩
  · rw [hcl]
  · rw [hcl]
    exact getOrAddEdsCluster_lookup reg clusterName now
  · simp only [pushEds, hcl]
  · intro reg2 m instances hok
    cases hga2 : getOrAddEdsCluster reg2 m now with
    | mk r1 c1 =>
      cases hl : loadAssignment c1 with
      | some l => simp [pushEdsCluster, hga2, hl]
      | none =>
        cases hu : updateCluster env m c1 now with
        | error e2 =>
          exfalso
          simp [updateCluster, hok] at hu
        | ok c' =>
          have hs := updateCluster_ok_loadAssignment env m c1 c' now hu
          obtain ⟨x, hx⟩ := Option.isSome_iff_exists.mp hs
          simp [pushEdsCluster, hga2, hl, hu, hx]

/-- Witness for pushEds_error_isolated: a fresh entry whose lookup fails
contributes nothing. -/
theorem pushEds_error_isolated_witness :
    (pushEdsCluster
        (fun n => if n = "svc-err" then Except.error "boom"
                  else Except.ok ([] : List ServiceInstance))
        [] "svc-err" 5).2 = none :=
  (pushEds_error_isolated
      (fun n => if n = "svc-err" then Except.error "boom"
                else Except.ok ([] : List ServiceInstance))
      [] "svc-err" ["svc-ok"] 5 "boom" rfl rfl).2.1

/-! #### Locality grouping lemmas. -/

theorem addToLocality_zones (m : List LocalityLbEndpoints) (z : String) (ep : LbEndpoint) :
    (addToLocality m z ep).map LocalityLbEndpoints.zone
      = if z ∈ m.map LocalityLbEndpoints.zone then m.map LocalityLbEndpoints.zone
        else m.map LocalityLbEndpoints.zone ++ [z] := by
  induction m with
  | nil => simp [addToLocality]
  | cons g rest ih =>
    by_cases h : g.zone = z
    · simp [addToLocality, h]
    · have hz : ¬ z = g.zone := fun hh => h hh.symm
      simp only [addToLocality, h, ite_false, List.map_cons]
      rw [ih]
      by_cases hmem : z ∈ rest.map LocalityLbEndpoints.zone
      · simp [List.mem_cons, hmem, hz]
      · simp [List.mem_cons, hmem, hz]

theorem addToLocality_count (m : List LocalityLbEndpoints) (z : String) (ep : LbEndpoint) :
    ((addToLocality m z ep).map (fun g => g.lbEndpoints.length)).sum
      = ((m.map (fun g => g.lbEndpoints.length)).sum) + 1 := by
  induction m with
  | nil => simp [addToLocality]
  | cons g rest ih =>
    by_cases h : g.zone = z
    · simp [addToLocality, h]
      omega
    · simp [addToLocality, h, ih]
      omega

theorem mem_ite_append (z z' : String) (l : List String) :
    (z ∈ if z' ∈ l then l else l ++ [z']) ↔ z ∈ l ∨ z = z' := by
  by_cases h : z' ∈ l
  · simp only [h, if_true, reduceIte]
    exact ⟨Or.inl, fun hh => hh.elim id (fun hz => hz ▸ h)⟩
  · simp [h, List.mem_append]

theorem buildLocalityMap_zones_mem (instances : List ServiceInstance)
    (m : List LocalityLbEndpoints) (z : String) :
    z ∈ (buildLocalityMap instances m).map LocalityLbEndpoints.zone ↔
      z ∈ m.map LocalityLbEndpoints.zone
        ∨ ∃ i ∈ instances, (ParseIP i.address).isSome = true ∧ i.availabilityZone = z := by
  induction instances generalizing m with
  | nil => simp [buildLocalityMap]
  | cons inst rest ih =>
    cases hp : ParseIP inst.address with
    | none =>
      simp only [buildLocalityMap, newEndpoint, hp]
      rw [ih]
      simp [hp]
    | some ip =>
      simp only [buildLocalityMap, newEndpoint, hp]
      rw [ih, addToLocality_zones, mem_ite_append]
      constructor
      · rintro (⟨hm | hz⟩ | ⟨i, hi, hip, hiz⟩)
        · exact Or.inl hm
        · exact Or.inr ⟨inst, List.mem_cons_self _ _, by simp [hp], hz.symm⟩
        · exact Or.inr ⟨i, List.mem_cons_of_mem _ hi, hip, hiz⟩
      · rintro (hm | ⟨i, hi, hip, hiz⟩)
        · exact Or.inl (Or.inl hm)
        · rcases List.mem_cons.mp hi with hieq | hirest
          · subst hieq
            exact Or.inl (Or.inr hiz.symm)
          · exact Or.inr ⟨i, hirest, hip, hiz⟩

theorem buildLocalityMap_zones_nodup (instances : List ServiceInstance)
    (m : List LocalityLbEndpoints) (hm : (m.map LocalityLbEndpoints.zone).Nodup) :
    ((buildLocalityMap instances m).map LocalityLbEndpoints.zone).Nodup := by
  induction instances generalizing m with
  | nil => simpa [buildLocalityMap] using hm
  | cons inst rest ih =>
    cases hp : ParseIP inst.address with
    | none =>
      simp only [buildLocalityMap, newEndpoint, hp]
      exact ih m hm
    | some ip =>
      simp only [buildLocalityMap, newEndpoint, hp]
      apply ih
      rw [addToLocality_zones]
      by_cases hz : inst.availabilityZone ∈ m.map LocalityLbEndpoints.zone
      · simpa [hz] using hm
      · simp [hz, List.nodup_append, hm]

theorem buildLocalityMap_count (instances : List ServiceInstance)
    (m : List LocalityLbEndpoints) :
    ((buildLocalityMap instances m).map (fun g => g.lbEndpoints.length)).sum
      = ((m.map (fun g => g.lbEndpoints.length)).sum)
        + (instances.filter (fun i => (ParseIP i.address).isSome)).length := by
  induction instances generalizing m with
  | nil => simp [buildLocalityMap]
  | cons inst rest ih =>
    cases hp : ParseIP inst.address with
    | none =>
      simp only [buildLocalityMap, newEndpoint, hp]
      rw [ih]
      simp [hp]
    | some ip =>
      simp only [buildLocalityMap, newEndpoint, hp]
      rw [ih, addToLocality_count]
      simp [hp]
      omega

/-- C6 counterexample: an instance whose address is not an IP but whose
zone is z1 is the whole input; the zone z1 is observed among the instances
(the distinct observed zone values number one), yet the grouper produces no
group at all — refuting one group per distinct zone observed among the
instances. -/
theorem localityLbEndpoints_invalid_zone_counterexample :
    ¬ ((localityLbEndpointsFromInstances
          [{ address := "not-an-ip", port := 80, availabilityZone := "z1" }]).length
        = (([{ address := "not-an-ip", port := 80, availabilityZone := "z1" }] :
              List ServiceInstance).map ServiceInstance.availabilityZone).dedup.length) := by
  decide

/-- C6 amended: the grouper produces exactly one group per distinct
availability-zone value observed among the instances whose address parses
as a valid IP (the empty zone counting as one value): the group zones are
pairwise distinct and a zone has a group exactly when some valid-address
instance carries it; the total endpoint count across groups equals the
number of instances whose address parses, invalid-address instances being
skipped without aborting the grouping. -/
theorem localityLbEndpoints_grouping (instances : List ServiceInstance) :
    ((localityLbEndpointsFromInstances instances).map LocalityLbEndpoints.zone).Nodup
    ∧ (∀ z, z ∈ (localityLbEndpointsFromInstances instances).map LocalityLbEndpoints.zone ↔
        ∃ i ∈ instances, (ParseIP i.address).isSome = true ∧ i.availabilityZone = z)
    ∧ ((localityLbEndpointsFromInstances instances).map (fun g => g.lbEndpoints.length)).sum
        = (instances.filter (fun i => (ParseIP i.address).isSome)).length := by
  refine ⟨?_, ?_, ?_⟩
  · exact buildLocalityMap_zones_nodup instances [] (by simp)
  · intro z
    have h := buildLocalityMap_zones_mem instances [] z
    simpa [localityLbEndpointsFromInstances] using h
  · have h := buildLocalityMap_count instances []
    simpa [localityLbEndpointsFromInstances] using h

end EdsV2
